import Mathlib

/-
Verification of the GeoJSON-to-DynamoDB importer
(src/Ahupuaa.API/Data Upload/Python/upload_geojson_to_dynamodb.py).

The Python values flowing through the importer (parsed GeoJSON features,
property bags, coordinate arrays) are embedded as the inductive type
`JValue`.  Numbers are modelled as rationals: ijson parses the input
numbers as Decimal, and the script's own float handling (replace_floats)
converts to Decimal with 10-digit rounding, so exact rational arithmetic
mirrors the values the script manipulates.  External library calls
(hashlib.md5, geohash2.encode) are passed in as function parameters, since
the script only ever feeds their outputs through unchanged.
-/

set_option maxRecDepth 100000

namespace Ahupuaa

/-- JSON-like values as produced by ijson: numbers (Decimal), strings,
booleans, null, arrays and objects (objects keep insertion order, as
Python dicts do). -/
inductive JValue where
  | jnum (q : ℚ)
  | jstr (s : String)
  | jbool (b : Bool)
  | jnull
  | jarr (items : List JValue)
  | jobj (fields : List (String × JValue))

/-- Mirrors `isinstance(x, (int, float, Decimal))` in simplify_coordinates:
true exactly on numeric leaves. -/
def JValue.isNum : JValue → Bool
  | .jnum _ => true
  | _ => false

/-- A GeoJSON coordinate position: an array all of whose entries are
numbers (e.g. [lng, lat]).  simplify_coordinates returns such arrays
untouched. -/
def JValue.isLeafPoint : JValue → Bool
  | .jarr xs => xs.all JValue.isNum
  | _ => false

/-- Number of entries of an array value (0 for non-arrays); used to state
facts about ring sizes. -/
def jarrLen : JValue → ℕ
  | .jarr xs => xs.length
  | _ => 0

/-- Helper for `everyNth`, structurally recursive on a fuel bound (the
fuel is always at least the list length, so the middle case never
fires). -/
def everyNthAux (step : ℕ) : ℕ → List α → List α
  | _, [] => []
  | 0, _ :: _ => []
  | fuel + 1, x :: xs => x :: everyNthAux step fuel (xs.drop (step - 1))

/-- Python slice semantics `l[::step]`: the elements at indices
0, step, 2*step, ... . -/
def everyNth (step : ℕ) (l : List α) : List α := everyNthAux step l.length l

theorem everyNthAux_fuel_invariant (step : ℕ) :
    ∀ (f1 f2 : ℕ) (l : List α), l.length ≤ f1 → l.length ≤ f2 →
      everyNthAux step f1 l = everyNthAux step f2 l := by
  intro f1
  induction f1 with
  | zero =>
    intro f2 l h1 h2
    cases l with
    | nil => cases f2 <;> rfl
    | cons x xs => simp at h1
  | succ f ih =>
    intro f2 l h1 h2
    cases l with
    | nil => cases f2 <;> rfl
    | cons x xs =>
      cases f2 with
      | zero => simp at h2
      | succ f2 =>
        simp only [List.length_cons] at h1 h2
        simp only [everyNthAux]
        congr 1
        exact ih f2 (xs.drop (step - 1)) (by simp; omega) (by simp; omega)

theorem everyNth_nil (step : ℕ) : everyNth step ([] : List α) = [] := rfl

/-- Unfolding equation for `everyNth` on a cons cell. -/
theorem everyNth_cons (step : ℕ) (x : α) (xs : List α) :
    everyNth step (x :: xs) = x :: everyNth step (xs.drop (step - 1)) := by
  show everyNthAux step (x :: xs).length (x :: xs) =
    x :: everyNthAux step (xs.drop (step - 1)).length (xs.drop (step - 1))
  simp only [List.length_cons, everyNthAux]
  congr 1
  exact everyNthAux_fuel_invariant step _ _ _
    (by simp only [List.length_drop]; omega) le_rfl

/-- With stride 1 the slice keeps every element. -/
theorem everyNth_one (l : List α) : everyNth 1 l = l := by
  induction l with
  | nil => rfl
  | cons x xs ih => rw [everyNth_cons]; simpa using ih

/-- Every element of the slice is an element of the list. -/
theorem everyNth_subset (step : ℕ) (l : List α) : everyNth step l ⊆ l := by
  have aux : ∀ (n : ℕ) (l : List α), l.length ≤ n → everyNth step l ⊆ l := by
    intro n
    induction n with
    | zero =>
      intro l h
      have : l = [] := List.eq_nil_of_length_eq_zero (by omega)
      subst this; simp [everyNth_nil]
    | succ n ih =>
      intro l h a ha
      cases l with
      | nil => simp [everyNth_nil] at ha
      | cons x xs =>
        simp only [List.length_cons] at h
        rw [everyNth_cons] at ha
        rcases List.mem_cons.1 ha with rfl | hmem
        · exact List.mem_cons_self _ _
        · have hlen : (xs.drop (step - 1)).length ≤ n := by
            simp only [List.length_drop]; omega
          exact List.mem_cons_of_mem _ (List.drop_subset _ _ (ih _ hlen hmem))
  exact aux l.length l le_rfl

/-- With stride at least 2, the slice has at most (length + 1) / 2
elements (stated multiplicatively). -/
theorem everyNth_two_mul_length_le (step : ℕ) (hs : 2 ≤ step) (l : List α) :
    2 * (everyNth step l).length ≤ l.length + 1 := by
  have aux : ∀ (n : ℕ) (l : List α), l.length ≤ n →
      2 * (everyNth step l).length ≤ l.length + 1 := by
    intro n
    induction n with
    | zero =>
      intro l h
      have : l = [] := List.eq_nil_of_length_eq_zero (by omega)
      subst this; simp [everyNth_nil]
    | succ n ih =>
      intro l h
      cases l with
      | nil => simp [everyNth_nil]
      | cons x xs =>
        simp only [List.length_cons] at h
        rw [everyNth_cons]
        have hlen : (xs.drop (step - 1)).length ≤ n := by
          simp only [List.length_drop]; omega
        have h2 := ih _ hlen
        simp only [List.length_cons, List.length_drop] at h2 ⊢
        omega
  exact aux l.length l le_rfl

/-- If the list has at most k * step elements, the slice has at most
k elements. -/
theorem everyNth_length_le (step : ℕ) (hs : 1 ≤ step) (l : List α) (k : ℕ)
    (hk : l.length ≤ k * step) : (everyNth step l).length ≤ k := by
  have aux : ∀ (n : ℕ) (l : List α) (k : ℕ), l.length ≤ n →
      l.length ≤ k * step → (everyNth step l).length ≤ k := by
    intro n
    induction n with
    | zero =>
      intro l k h1 h2
      have : l = [] := List.eq_nil_of_length_eq_zero (by omega)
      subst this; simp [everyNth_nil]
    | succ n ih =>
      intro l k h1 h2
      cases l with
      | nil => simp [everyNth_nil]
      | cons x xs =>
        cases k with
        | zero => simp at h2
        | succ m =>
          simp only [List.length_cons] at h1
          rw [everyNth_cons]
          have hmul : (m + 1) * step = m * step + step := by ring
          rw [hmul] at h2
          simp only [List.length_cons] at h2
          have hdl : (xs.drop (step - 1)).length ≤ n := by
            simp only [List.length_drop]; omega
          have hkk : (xs.drop (step - 1)).length ≤ m * step := by
            simp only [List.length_drop]; omega
          have := ih _ m hdl hkk
          simp only [List.length_cons]
          omega
  exact aux l.length l k le_rfl hk

/-- Dropping all but one element of a nonempty list leaves exactly the
last element. -/
theorem drop_length_pred (l : List α) :
    l.drop (l.length - 1) = l.getLast?.toList := by
  induction l with
  | nil => rfl
  | cons x xs ih =>
    cases xs with
    | nil => rfl
    | cons y tl =>
      simp only [List.length_cons]
      rw [show tl.length + 1 + 1 - 1 = tl.length + 1 from rfl, List.drop_succ_cons,
        List.getLast?_cons_cons]
      have h2 : (y :: tl).length - 1 = tl.length := by simp
      rw [← h2]
      exact ih

/-- The stride `max(1, int(1/factor))` computed in simplify_coordinates.
Python int() truncates toward zero; composing with `max 1` makes the
floor used here agree with it for every factor (both give 1 whenever
1/factor < 2). -/
def stepOf (factor : ℚ) : ℕ := max 1 (Int.toNat ⌊(1 : ℚ) / factor⌋)

/-- The script's default SIMPLIFIED_COORDS_FACTOR = 0.01. -/
def SIMPLIFIED_COORDS_FACTOR : ℚ := 1 / 100

mutual

/-- simplify_coordinates (lines 298-327): a list whose entries are all
numeric (a single coordinate position) is returned as is; a longer list
(> 100 entries, and > 2, which is implied) is decimated to its first
element, every stride-th interior element, and its last element;
otherwise the function recurses into each entry. -/
def simplify_coordinates (factor : ℚ) : JValue → JValue
  | .jarr xs =>
    if xs.all JValue.isNum then .jarr xs
    else if 100 < xs.length then
      if 2 < xs.length then
        .jarr (xs.take 1 ++ everyNth (stepOf factor) ((xs.drop 1).dropLast) ++
          xs.drop (xs.length - 1))
      else .jarr (simplifyList factor xs)
    else .jarr (simplifyList factor xs)
  | v => v

/-- The list comprehension `[simplify_coordinates(c, factor) for c in coordinates]`. -/
def simplifyList (factor : ℚ) : List JValue → List JValue
  | [] => []
  | x :: xs => simplify_coordinates factor x :: simplifyList factor xs

end

theorem simplifyList_eq_map (factor : ℚ) (l : List JValue) :
    simplifyList factor l = l.map (simplify_coordinates factor) := by
  induction l with
  | nil => rfl
  | cons x xs ih => simp [simplifyList, ih]

/-- A leaf coordinate position is a fixpoint of simplify_coordinates. -/
theorem simplify_leafPoint (factor : ℚ) (v : JValue) (h : v.isLeafPoint) :
    simplify_coordinates factor v = v := by
  cases v with
  | jarr xs =>
    simp only [JValue.isLeafPoint] at h
    simp [simplify_coordinates, h]
  | jnum q => rfl
  | jstr s => rfl
  | jbool b => rfl
  | jnull => rfl
  | jobj l => rfl

/-- A nonempty list of coordinate positions is not itself all-numeric. -/
theorem not_all_isNum_of_leafPoints {ps : List JValue}
    (h : ps.all JValue.isLeafPoint) (hne : ps ≠ []) :
    ps.all JValue.isNum = false := by
  cases ps with
  | nil => exact absurd rfl hne
  | cons p ps =>
    simp only [List.all_cons, Bool.and_eq_true] at h
    cases p with
    | jarr xs => simp [List.all_cons, JValue.isNum]
    | jnum q => simp [JValue.isLeafPoint] at h
    | jstr s => simp [JValue.isLeafPoint] at h
    | jbool b => simp [JValue.isLeafPoint] at h
    | jnull => simp [JValue.isLeafPoint] at h
    | jobj l => simp [JValue.isLeafPoint] at h

/-- Core identity: simplify_coordinates leaves a ring of at most 100
coordinate positions untouched. -/
theorem simplify_ring_le100 (factor : ℚ) (ps : List JValue)
    (h : ps.all JValue.isLeafPoint) (hlen : ps.length ≤ 100) :
    simplify_coordinates factor (.jarr ps) = .jarr ps := by
  by_cases hne : ps = []
  · subst hne; rfl
  · have hnum := not_all_isNum_of_leafPoints h hne
    have hnot : ¬ 100 < ps.length := by omega
    simp only [simplify_coordinates, hnum, Bool.false_eq_true, if_false, hnot,
      simplifyList_eq_map]
    congr 1
    conv_rhs => rw [← List.map_id ps]
    refine List.map_congr_left fun p hp => ?_
    exact simplify_leafPoint factor p (by
      simp only [List.all_eq_true] at h; exact h p hp)

/-- On a ring of more than 100 positions, simplify_coordinates keeps the
first element, every stride-th interior element, and the last element. -/
theorem simplify_ring_gt100 (factor : ℚ) (ps : List JValue)
    (h : ps.all JValue.isLeafPoint) (hne : ps ≠ []) (hlen : 100 < ps.length) :
    simplify_coordinates factor (.jarr ps) =
      .jarr (ps.take 1 ++ everyNth (stepOf factor) ((ps.drop 1).dropLast) ++
        ps.drop (ps.length - 1)) := by
  have hnum := not_all_isNum_of_leafPoints h hne
  have h2 : 2 < ps.length := by omega
  simp [simplify_coordinates, hnum, hlen, h2]

/-- Every element of the decimated ring is an element of the input ring. -/
theorem decim_output_subset (step : ℕ) (ps : List JValue) :
    (ps.take 1 ++ everyNth step ((ps.drop 1).dropLast) ++
      ps.drop (ps.length - 1)) ⊆ ps := by
  intro a ha
  rcases List.mem_append.1 ha with h | h
  · rcases List.mem_append.1 h with h1 | h2
    · exact List.take_subset _ _ h1
    · exact List.drop_subset _ _ (List.dropLast_subset _ (everyNth_subset _ _ h2))
  · exact List.drop_subset _ _ h

theorem dropLast_append_getLast_toList (l : List α) (h : l ≠ []) :
    l.dropLast ++ l.getLast?.toList = l := by
  obtain ⟨a, ha⟩ := Option.isSome_iff_exists.1 (List.getLast?_isSome.2 h)
  rw [ha]
  exact List.dropLast_append_getLast? a ha

/-- With stride 1 the decimation of a ring of at least 2 points rebuilds
the ring unchanged. -/
theorem decim_output_step_one (ps : List JValue) (h2 : 2 ≤ ps.length) :
    ps.take 1 ++ everyNth 1 ((ps.drop 1).dropLast) ++
      ps.drop (ps.length - 1) = ps := by
  cases ps with
  | nil => simp at h2
  | cons x tail =>
    have htne : tail ≠ [] := by
      intro hn; subst hn; simp at h2
    rw [everyNth_one]
    have hstep : (x :: tail).drop ((x :: tail).length - 1) =
        tail.drop (tail.length - 1) := by
      simp only [List.length_cons, Nat.add_sub_cancel]
      have hlen : tail.length - 1 + 1 = tail.length := by
        have := List.length_pos.2 htne; omega
      conv_lhs => rw [← hlen]
      rw [List.drop_succ_cons]
    rw [hstep, drop_length_pred]
    simp only [List.take_succ_cons, List.take_zero, List.drop_succ_cons,
      List.drop_zero]
    show [x] ++ tail.dropLast ++ tail.getLast?.toList = x :: tail
    rw [List.append_assoc, dropLast_append_getLast_toList tail htne]
    rfl

/-- Concrete coordinate rings used in witnesses and counterexamples: n
distinct positions. -/
def sampleRing (n : ℕ) : List JValue :=
  (List.range n).map fun i => .jarr [.jnum i, .jnum 0]

/-- Computes the stride for a concrete factor from rational bounds
(rational arithmetic does not reduce inside the kernel, so concrete
strides are established through this lemma rather than by decide). -/
theorem stepOf_eq_of_bounds (factor : ℚ) (n : ℕ) (h1 : 1 ≤ n)
    (h2 : (n : ℚ) ≤ 1 / factor) (h3 : 1 / factor < n + 1) :
    stepOf factor = n := by
  have hfl : ⌊(1 : ℚ) / factor⌋ = (n : ℤ) := by
    rw [Int.floor_eq_iff]
    exact ⟨by exact_mod_cast h2, by exact_mod_cast h3⟩
  simp only [stepOf, hfl]
  omega

theorem stepOf_nine_tenths : stepOf (9 / 10) = 1 :=
  stepOf_eq_of_bounds _ 1 (by norm_num) (by norm_num) (by norm_num)

theorem stepOf_half : stepOf (1 / 2) = 2 :=
  stepOf_eq_of_bounds _ 2 (by norm_num) (by norm_num) (by norm_num)

theorem stepOf_default : stepOf SIMPLIFIED_COORDS_FACTOR = 100 :=
  stepOf_eq_of_bounds _ 100 (by norm_num)
    (by norm_num [SIMPLIFIED_COORDS_FACTOR])
    (by norm_num [SIMPLIFIED_COORDS_FACTOR])

/-- C7: for every coordinate ring with at most 100 points and every
factor, decimate returns the ring unchanged (it is the identity function
on such rings). -/
theorem decimate_id_on_small_rings (factor : ℚ) (ps : List JValue)
    (h : ps.all JValue.isLeafPoint) (hlen : ps.length ≤ 100) :
    simplify_coordinates factor (.jarr ps) = .jarr ps :=
  simplify_ring_le100 factor ps h hlen

/-- Witness for C7 at a concrete 60-point ring and the default factor. -/
theorem decimate_id_on_small_rings_witness :
    simplify_coordinates SIMPLIFIED_COORDS_FACTOR (.jarr (sampleRing 60)) =
      .jarr (sampleRing 60) :=
  decimate_id_on_small_rings SIMPLIFIED_COORDS_FACTOR (sampleRing 60)
    (by decide) (by decide)

/-- C5 (amended): on a ring of more than 100 points, decimate keeps the
original first and last points for every factor; the point count drops
strictly whenever 0 < factor ≤ 1/2 (i.e. the stride is at least 2).  The
original claim's "strictly fewer points for every factor < 1" fails for
1/2 < factor < 1, where the stride is max(1, int(1/factor)) = 1 and every
point is kept. -/
theorem decimate_long_ring_endpoints (factor : ℚ) (ps : List JValue)
    (h : ps.all JValue.isLeafPoint) (hlen : 100 < ps.length) :
    ∃ qs, simplify_coordinates factor (.jarr ps) = .jarr qs ∧
      qs.head? = ps.head? ∧ qs.getLast? = ps.getLast? ∧
      (0 < factor → factor ≤ 1 / 2 → qs.length < ps.length) := by
  have hne : ps ≠ [] := by intro hn; subst hn; simp at hlen
  refine ⟨_, simplify_ring_gt100 factor ps h hne hlen, ?_, ?_, ?_⟩
  · cases ps with
    | nil => simp at hlen
    | cons x tail => simp [List.take_succ_cons]
  · rw [List.getLast?_append_of_ne_nil, drop_length_pred]
    · obtain ⟨a, ha⟩ := Option.isSome_iff_exists.1 (List.getLast?_isSome.2 hne)
      rw [ha]; rfl
    · rw [drop_length_pred]
      obtain ⟨a, ha⟩ := Option.isSome_iff_exists.1 (List.getLast?_isSome.2 hne)
      rw [ha]; simp
  · intro hpos hhalf
    have hq : (2 : ℚ) ≤ 1 / factor := by
      rw [le_div_iff₀ hpos]; linarith
    have hz : (2 : ℤ) ≤ ⌊(1 : ℚ) / factor⌋ := Int.le_floor.2 (by exact_mod_cast hq)
    have hstep : 2 ≤ stepOf factor := by
      simp only [stepOf]; omega
    have hcut := everyNth_two_mul_length_le (stepOf factor) hstep
      ((ps.drop 1).dropLast)
    simp only [List.length_dropLast, List.length_drop] at hcut
    simp only [List.length_append, List.length_take, List.length_drop]
    omega

/-- Witness for C5 at a 150-point ring with factor 1/2. -/
theorem decimate_long_ring_endpoints_witness :
    ∃ qs, simplify_coordinates (1 / 2) (.jarr (sampleRing 150)) = .jarr qs ∧
      qs.head? = (sampleRing 150).head? ∧
      qs.getLast? = (sampleRing 150).getLast? ∧
      ((0 : ℚ) < 1 / 2 → (1 : ℚ) / 2 ≤ 1 / 2 → qs.length < (sampleRing 150).length) :=
  decimate_long_ring_endpoints (1 / 2) (sampleRing 150) (by decide) (by decide)

/-- C5 counterexample: factor 0.9 is < 1 but its stride is
max(1, int(1/0.9)) = 1, so a 101-point ring keeps all 101 points — the
decimated ring does not have strictly fewer points. -/
theorem decimate_long_ring_counterexample :
    100 < (sampleRing 101).length ∧ (9 : ℚ) / 10 < 1 ∧
      ¬ jarrLen (simplify_coordinates (9 / 10) (.jarr (sampleRing 101))) <
        (sampleRing 101).length := by
  refine ⟨by decide, by norm_num, ?_⟩
  have e1 := simplify_ring_gt100 (9 / 10) (sampleRing 101) (by decide)
    (List.length_pos.1 (by decide)) (by decide)
  rw [stepOf_nine_tenths, decim_output_step_one _ (by decide)] at e1
  rw [e1]
  decide

/-- C4 (amended): decimation with a fixed factor is idempotent on a
coordinate ring whenever the ring has at most 98 * stride + 2 points
(then the decimated ring has at most 100 points and passes through
unchanged a second time), and also whenever the stride is 1.  A ring so
long that its decimated form still exceeds 100 points is decimated
further by a second application, which refutes the unrestricted claim. -/
theorem decimate_idempotent_on_bounded_rings (factor : ℚ) (ps : List JValue)
    (h : ps.all JValue.isLeafPoint)
    (hcond : ps.length ≤ 98 * stepOf factor + 2 ∨ stepOf factor = 1) :
    simplify_coordinates factor (simplify_coordinates factor (.jarr ps)) =
      simplify_coordinates factor (.jarr ps) := by
  by_cases hlen : ps.length ≤ 100
  · have e := simplify_ring_le100 factor ps h hlen
    rw [e]; exact e
  · push_neg at hlen
    have hne : ps ≠ [] := by intro hn; subst hn; simp at hlen
    have e := simplify_ring_gt100 factor ps h hne hlen
    have hsub := decim_output_subset (stepOf factor) ps
    have hleaf : (ps.take 1 ++ everyNth (stepOf factor) ((ps.drop 1).dropLast) ++
        ps.drop (ps.length - 1)).all JValue.isLeafPoint := by
      rw [List.all_eq_true]
      intro p hp
      exact List.all_eq_true.1 h p (hsub hp)
    rcases hcond with hbound | hstep1
    · have hk : ((ps.drop 1).dropLast).length ≤ 98 * stepOf factor := by
        simp only [List.length_dropLast, List.length_drop]; omega
      have hlen2 := everyNth_length_le (stepOf factor) (le_max_left _ _)
        ((ps.drop 1).dropLast) 98 hk
      have houtlen : (ps.take 1 ++ everyNth (stepOf factor) ((ps.drop 1).dropLast) ++
          ps.drop (ps.length - 1)).length ≤ 100 := by
        simp only [List.length_append, List.length_take, List.length_drop]
        omega
      rw [e]
      exact simplify_ring_le100 factor _ hleaf houtlen
    · have hout : ps.take 1 ++ everyNth (stepOf factor) ((ps.drop 1).dropLast) ++
          ps.drop (ps.length - 1) = ps := by
        rw [hstep1]
        exact decim_output_step_one ps (by omega)
      rw [hout] at e
      rw [e]; exact e

/-- Witness for C4 at a 150-point ring with the default factor 0.01
(stride 100, and 150 ≤ 98 * 100 + 2). -/
theorem decimate_idempotent_witness :
    simplify_coordinates SIMPLIFIED_COORDS_FACTOR
        (simplify_coordinates SIMPLIFIED_COORDS_FACTOR (.jarr (sampleRing 150))) =
      simplify_coordinates SIMPLIFIED_COORDS_FACTOR (.jarr (sampleRing 150)) :=
  decimate_idempotent_on_bounded_rings SIMPLIFIED_COORDS_FACTOR (sampleRing 150)
    (by decide) (Or.inl (by rw [stepOf_default]; decide))

/-- C4 counterexample: with factor 1/2 (stride 2) a 201-point ring
decimates to 102 points, which is still above the 100-point threshold, so
a second application decimates again (to 52 points) instead of returning
the first output unchanged. -/
theorem decimate_idempotent_counterexample :
    simplify_coordinates (1 / 2) (simplify_coordinates (1 / 2)
        (.jarr (sampleRing 201))) ≠
      simplify_coordinates (1 / 2) (.jarr (sampleRing 201)) := by
  have e1 := simplify_ring_gt100 (1 / 2) (sampleRing 201) (by decide)
    (List.length_pos.1 (by decide)) (by decide)
  rw [stepOf_half] at e1
  have e2 := simplify_ring_gt100 (1 / 2)
    ((sampleRing 201).take 1 ++ everyNth 2 (((sampleRing 201).drop 1).dropLast) ++
      (sampleRing 201).drop ((sampleRing 201).length - 1))
    (by decide) (List.length_pos.1 (by decide)) (by decide)
  rw [stepOf_half] at e2
  intro hEq
  rw [e1, e2] at hEq
  exact absurd (congrArg jarrLen hEq) (by decide)

/-! ## Batch writer (write_batch_to_dynamo, lines 330-367)

The DynamoDB client is modelled by a response function `respond` mapping
(group index, attempt number, submitted items) to the list of unprocessed
items that batch_write_item reports back.  The backoff sleeps have no
observable effect on the data flow and are omitted.  The second component
of `process_batch`'s result instruments the number of batch_write_item
calls issued for the group; the script itself only uses the boolean. -/

/-- DynamoDB BatchWriteItem limit (BATCH_SIZE = 25). -/
def BATCH_SIZE : ℕ := 25

/-- Maximum number of retries for write operations (MAX_RETRIES = 10). -/
def MAX_RETRIES : ℕ := 10

/-- Helper for `chunksOf`, structurally recursive on a fuel bound. -/
def chunksOfAux (n : ℕ) : ℕ → List α → List (List α)
  | _, [] => []
  | 0, _ :: _ => []
  | fuel + 1, x :: xs => (x :: xs).take n :: chunksOfAux n fuel (xs.drop (n - 1))

/-- The chunking `[batch_items[i:i+BATCH_SIZE] for i in range(0, len, BATCH_SIZE)]`. -/
def chunksOf (n : ℕ) (l : List α) : List (List α) := chunksOfAux n l.length l

/-- The while loop of process_batch (lines 338-361): attempt a write; on a
nonempty unprocessed subset retry just that subset, bounded by the
remaining retry budget; stop successfully when nothing is unprocessed.
Returns the outcome together with the number of write calls made. -/
def processBatchGo (respond : ℕ → List β → List β) :
    ℕ → ℕ → List β → Bool × ℕ
  | attempt, 0, [] => (true, attempt)
  | attempt, 0, _ :: _ => (false, attempt)
  | attempt, _ + 1, [] => (true, attempt)
  | attempt, r + 1, x :: xs =>
    match respond attempt (x :: xs) with
    | [] => (true, attempt + 1)
    | y :: ys => processBatchGo respond (attempt + 1) r (y :: ys)

/-- One group's bounded-retry write (process_batch in the source). -/
def process_batch (respond : ℕ → List β → List β) (maxRetries : ℕ)
    (items : List β) : Bool × ℕ :=
  processBatchGo respond 0 maxRetries items

/-- write_batch_to_dynamo: split into BATCH_SIZE groups, write each group
with bounded retry, and return the conjunction of the group outcomes.
`respond` takes the group index first; the thread pool only affects
scheduling, not the outcomes, so the groups are modelled in order. -/
def write_batch_to_dynamo (respond : ℕ → ℕ → List β → List β)
    (maxRetries : ℕ) (batch_items : List β) : Bool :=
  (((chunksOf BATCH_SIZE batch_items).enum).map
    (fun gb => (process_batch (respond gb.1) maxRetries gb.2).1)).all id

theorem processBatchGo_succeeds (respond : ℕ → List β → List β) (K : ℕ)
    (hfail : ∀ a its, a < K → its ≠ [] → respond a its ≠ [])
    (hsucc : ∀ its, its ≠ [] → respond K its = []) :
    ∀ (d attempt remaining : ℕ) (items : List β), items ≠ [] →
      attempt + d = K → d < remaining →
      processBatchGo respond attempt remaining items = (true, K + 1) := by
  intro d
  induction d with
  | zero =>
    intro attempt remaining items hne hK hd
    obtain ⟨r, rfl⟩ : ∃ r, remaining = r + 1 :=
      ⟨remaining - 1, by omega⟩
    have hK0 : attempt = K := by omega
    subst hK0
    cases items with
    | nil => exact absurd rfl hne
    | cons x xs =>
      have hs := hsucc (x :: xs) hne
      simp only [processBatchGo, hs]
  | succ d ih =>
    intro attempt remaining items hne hK hd
    obtain ⟨r, rfl⟩ : ∃ r, remaining = r + 1 :=
      ⟨remaining - 1, by omega⟩
    have hlt : attempt < K := by omega
    cases items with
    | nil => exact absurd rfl hne
    | cons x xs =>
      have hres := hfail attempt (x :: xs) hlt hne
      obtain ⟨y, ys, hys⟩ : ∃ y ys, respond attempt (x :: xs) = y :: ys := by
        cases hr : respond attempt (x :: xs) with
        | nil => exact absurd hr hres
        | cons y ys => exact ⟨y, ys, rfl⟩
      simp only [processBatchGo, hys]
      exact ih (attempt + 1) r (y :: ys) (by simp) (by omega) (by omega)

theorem processBatchGo_exhausts (respond : ℕ → List β → List β)
    (hfail : ∀ a its, its ≠ [] → respond a its ≠ []) :
    ∀ (remaining attempt : ℕ) (items : List β), items ≠ [] →
      processBatchGo respond attempt remaining items =
        (false, attempt + remaining) := by
  intro remaining
  induction remaining with
  | zero =>
    intro attempt items hne
    cases items with
    | nil => exact absurd rfl hne
    | cons x xs => simp [processBatchGo]
  | succ r ih =>
    intro attempt items hne
    cases items with
    | nil => exact absurd rfl hne
    | cons x xs =>
      have hres := hfail attempt (x :: xs) hne
      obtain ⟨y, ys, hys⟩ : ∃ y ys, respond attempt (x :: xs) = y :: ys := by
        cases hr : respond attempt (x :: xs) with
        | nil => exact absurd hr hres
        | cons y ys => exact ⟨y, ys, rfl⟩
      simp only [processBatchGo, hys]
      rw [ih (attempt + 1) (y :: ys) (by simp)]
      congr 1
      omega

/-- C6: per group, a store that reports unprocessed items on the first K
attempts and none on the next makes the group succeed after exactly K+1
attempts (K < max retries); a store that never stops reporting
unprocessed items makes the group fail after exactly max-retries
attempts; and writeAll is the conjunction of the independent per-group
outcomes (each group's result depends only on its own chunk and its own
responses). -/
theorem batch_writer_retry_semantics {β : Type} :
    (∀ (respond : ℕ → List β → List β) (K M : ℕ) (items : List β),
      items ≠ [] → K < M →
      (∀ a its, a < K → its ≠ [] → respond a its ≠ []) →
      (∀ its, its ≠ [] → respond K its = []) →
      process_batch respond M items = (true, K + 1)) ∧
    (∀ (respond : ℕ → List β → List β) (M : ℕ) (items : List β),
      items ≠ [] → (∀ a its, its ≠ [] → respond a its ≠ []) →
      process_batch respond M items = (false, M)) ∧
    (∀ (respond : ℕ → ℕ → List β → List β) (M : ℕ) (batch_items : List β),
      write_batch_to_dynamo respond M batch_items =
        (((chunksOf BATCH_SIZE batch_items).enum).map
          (fun gb => (process_batch (respond gb.1) M gb.2).1)).all id) := by
  refine ⟨?_, ?_, fun respond M batch_items => rfl⟩
  · intro respond K M items hne hKM hfail hsucc
    exact processBatchGo_succeeds respond K hfail hsucc K 0 M items hne
      (by omega) hKM
  · intro respond M items hne hfail
    have := processBatchGo_exhausts respond hfail M 0 items hne
    simpa using this

/-- Witness for C6: a store failing the first 2 attempts then succeeding
gives (success, 3 attempts) with max retries 10; a store that never
succeeds gives (failure, 10 attempts). -/
theorem batch_writer_retry_semantics_witness :
    process_batch (fun a (its : List ℕ) => if a < 2 then its else [])
        MAX_RETRIES [7] = (true, 3) ∧
    process_batch (fun _ (its : List ℕ) => its) MAX_RETRIES [7] = (false, 10) := by
  constructor
  · exact (@batch_writer_retry_semantics ℕ).1
      (fun a its => if a < 2 then its else []) 2 MAX_RETRIES [7]
      (by simp) (by decide)
      (fun a its ha hi => by simp only []; rw [if_pos ha]; exact hi)
      (fun its hi => by simp)
  · exact (@batch_writer_retry_semantics ℕ).2.1
      (fun _ its => its) MAX_RETRIES [7] (by simp) (fun a its hi => hi)

/-! ## JValue utilities for the record builder

ijson parses document numbers as Decimal (and Python int), never float,
so in this embedding replace_floats is a structural traversal that leaves
every number unchanged: its float branch can only fire on data that the
pipeline never produces.  External digest and geohash libraries are
modelled as function parameters. -/

/-- Python truthiness of a parsed JSON value: None, empty strings, zero,
empty lists and empty dicts are falsy. -/
def jTruthy : JValue → Bool
  | .jnum q => !(q == 0)
  | .jstr s => !(s == "")
  | .jbool b => b
  | .jnull => false
  | .jarr l => !l.isEmpty
  | .jobj l => !l.isEmpty

/-- Fields of an object value ([] for non-objects; the script only ever
treats these positions as dicts). -/
def jobjFields : JValue → List (String × JValue)
  | .jobj l => l
  | _ => []

/-- dict lookup feature[k] / feature.get(k). -/
def jLookup (f : JValue) (k : String) : Option JValue :=
  List.lookup k (jobjFields f)

/-- Python str.strip(): removes leading and trailing whitespace. -/
def pyStrip (s : String) : String :=
  ⟨((s.data.dropWhile Char.isWhitespace).reverse.dropWhile
    Char.isWhitespace).reverse⟩

/-- Rendering of a number inside attribute strings and JSON dumps.  The
exact decimal spelling Python produces is immaterial to every claim (the
rendered text is only ever carried around opaquely), so rationals are
rendered in num/den form. -/
def ratStr (q : ℚ) : String :=
  if q.den = 1 then toString q.num
  else toString q.num ++ "/" ++ toString q.den

mutual

/-- json.dumps with default separators (", " and ": ") and insertion
order, with Decimal values rendered through custom_json_encoder.  String
escaping is omitted: no claim inspects dumped text containing
metacharacters. -/
def dumpJson : JValue → String
  | .jnull => "null"
  | .jbool b => if b then "true" else "false"
  | .jnum q => ratStr q
  | .jstr s => "\"" ++ s ++ "\""
  | .jarr l => "[" ++ dumpJsonList l ++ "]"
  | .jobj l => "\x7b" ++ dumpJsonFields l ++ "\x7d"

def dumpJsonList : List JValue → String
  | [] => ""
  | [x] => dumpJson x
  | x :: y :: xs => dumpJson x ++ ", " ++ dumpJsonList (y :: xs)

def dumpJsonFields : List (String × JValue) → String
  | [] => ""
  | [(k, v)] => "\"" ++ k ++ "\": " ++ dumpJson v
  | (k, v) :: q :: ps =>
    "\"" ++ k ++ "\": " ++ dumpJson v ++ ", " ++ dumpJsonFields (q :: ps)

end

/-- Insertion into a key-sorted field list (String order mirrors the code
point comparison json.dumps sorts by). -/
def insertByKey (p : String × JValue) :
    List (String × JValue) → List (String × JValue)
  | [] => [p]
  | q :: qs => if p.1 ≤ q.1 then p :: q :: qs else q :: insertByKey p qs

/-- Insertion sort of object fields by key. -/
def sortByKey : List (String × JValue) → List (String × JValue)
  | [] => []
  | p :: ps => insertByKey p (sortByKey ps)

mutual

/-- Recursively sorts every object's fields by key, modelling the
sort_keys=True canonicalization of json.dumps. -/
def sortKeysRec : JValue → JValue
  | .jobj l => .jobj (sortByKey (sortKeysFields l))
  | .jarr l => .jarr (sortKeysList l)
  | v => v

def sortKeysList : List JValue → List JValue
  | [] => []
  | x :: xs => sortKeysRec x :: sortKeysList xs

def sortKeysFields : List (String × JValue) → List (String × JValue)
  | [] => []
  | (k, v) :: ps => (k, sortKeysRec v) :: sortKeysFields ps

end

/-- json.dumps(v, sort_keys=True, default=custom_json_encoder): the
canonical key-sorted serialization used for the content hash. -/
def dumpJsonSorted (v : JValue) : String := dumpJson (sortKeysRec v)

/-- Python str() as used in f-strings, on the values the script renders.
Containers are approximated by their JSON dump; no claim depends on the
spelling of a rendered container. -/
def pyStr : JValue → String
  | .jstr s => s
  | .jnum q => ratStr q
  | .jbool b => if b then "True" else "False"
  | .jnull => "None"
  | .jarr l => dumpJson (.jarr l)
  | .jobj l => dumpJson (.jobj l)

mutual

/-- replace_floats (lines 274-295): recursively rebuilds lists and dicts,
converting float leaves to Decimal.  ijson yields Decimal/int numbers, so
on pipeline data the numeric leaves pass through with their value
unchanged, which is how the single `jnum` constructor models them. -/
def replace_floats : JValue → JValue
  | .jnum q => .jnum q
  | .jarr l => .jarr (replaceFloatsList l)
  | .jobj l => .jobj (replaceFloatsFields l)
  | v => v

def replaceFloatsList : List JValue → List JValue
  | [] => []
  | x :: xs => replace_floats x :: replaceFloatsList xs

def replaceFloatsFields : List (String × JValue) → List (String × JValue)
  | [] => []
  | (k, v) :: ps => (k, replace_floats v) :: replaceFloatsFields ps

end

/-- Digit run to a natural number. -/
def digitsToNat (l : List Char) : ℕ :=
  l.foldl (fun n c => n * 10 + (c.toNat - 48)) 0

/-- Python float() on a decimal string literal: optional surrounding
whitespace, optional sign, digits with an optional single decimal point.
Exponent, inf/nan and underscore forms are not modelled; no claim
involves them. -/
def parseFloatStr (s : String) : Option ℚ :=
  let l := (s.data.dropWhile Char.isWhitespace).reverse.dropWhile
    Char.isWhitespace |>.reverse
  let sl : Bool × List Char :=
    match l with
    | '-' :: rest => (true, rest)
    | '+' :: rest => (false, rest)
    | _ => (false, l)
  let ip := sl.2.takeWhile (fun c => !(c == '.'))
  let rest := sl.2.dropWhile (fun c => !(c == '.'))
  let sgn : ℚ := if sl.1 then -1 else 1
  match rest with
  | [] =>
    if !ip.isEmpty && ip.all Char.isDigit then
      some (sgn * (digitsToNat ip : ℚ))
    else none
  | _ :: fp =>
    if (!ip.isEmpty || !fp.isEmpty) && ip.all Char.isDigit &&
        fp.all Char.isDigit then
      some (sgn * ((digitsToNat ip : ℚ) + (digitsToNat fp : ℚ) / 10 ^ fp.length))
    else none

/-- Python float(x) on a parsed JSON value: numbers convert to
themselves, booleans to 0/1, numeric strings parse, and None / lists /
dicts raise (modelled as none). -/
def pyFloat : JValue → Option ℚ
  | .jnum q => some q
  | .jbool b => some (if b then 1 else 0)
  | .jstr s => parseFloatStr s
  | _ => none

/-- Python int() on a rational: truncation toward zero. -/
def ratTrunc (q : ℚ) : ℤ := if 0 ≤ q then ⌊q⌋ else ⌈q⌉

/-- properties.get('gisacres', properties.get('st_areashape', 0))
(line 674). -/
def areaValue (props : List (String × JValue)) : JValue :=
  (List.lookup "gisacres" props).getD
    ((List.lookup "st_areashape" props).getD (.jnum 0))

/-- Display priority (lines 673-681): min(10, max(1, int(area / 10000)))
when float(area) succeeds, otherwise the fallback 5. -/
def displayPriority (props : List (String × JValue)) : ℤ :=
  match pyFloat (areaValue props) with
  | some a => min 10 (max 1 (ratTrunc (a / 10000)))
  | none => 5

/-- format_hierarchical_key (lines 408-423): each name falls back to
"Unknown" when falsy (absent values arrive as the dict.get default
instead), then is stripped.  Python would raise on a truthy non-string
(AttributeError on .strip), which aborts the run; the embedding totalizes
via pyStr and the sort-key theorems restrict to string/None values. -/
def format_hierarchical_key (mokupuni moku : JValue) : String :=
  let m := pyStrip (pyStr (if jTruthy mokupuni then mokupuni else .jstr "Unknown"))
  let k := pyStrip (pyStr (if jTruthy moku then moku else .jstr "Unknown"))
  "MOKUPUNI#" ++ m ++ "#MOKU#" ++ k

/-! ## Feature accessors (process_geojson, lines 565-614)

The model is defined for features as parsed GeoJSON objects; where the
script would crash on structurally malformed optional fields (a truthy
non-dict bounds, a centroid_geopoint without numeric lat/lng), the
accessors return the absent value instead, and claims that depend on such
positions carry shape hypotheses. -/

/-- properties = feature.get('properties', \x7b\x7d). -/
def featureProperties (f : JValue) : List (String × JValue) :=
  jobjFields ((jLookup f "properties").getD (.jobj []))

/-- ahupuaa_name with its fallback chain (lines 569-570). -/
def ahupuaaName (idx : ℕ) (f : JValue) : JValue :=
  (List.lookup "ahupuaa" (featureProperties f)).getD
    ((List.lookup "name" (featureProperties f)).getD
      (.jstr ("Ahupuaa_" ++ toString idx)))

/-- moku_name = properties.get('moku', 'Unknown'). -/
def mokuName (f : JValue) : JValue :=
  (List.lookup "moku" (featureProperties f)).getD (.jstr "Unknown")

/-- mokupuni_name = properties.get('mokupuni', 'Unknown'). -/
def mokupuniName (f : JValue) : JValue :=
  (List.lookup "mokupuni" (featureProperties f)).getD (.jstr "Unknown")

/-- feature_id (lines 575-576); the value is rendered by str() inside
the f-string that builds the primary key. -/
def featureId (idx : ℕ) (f : JValue) : String :=
  pyStr ((jLookup f "id").getD
    ((List.lookup "objectid" (featureProperties f)).getD
      (.jstr (toString idx))))

/-- geometry = replace_floats(feature.get('geometry', \x7b\x7d)),
as an object field list. -/
def featureGeometry (f : JValue) : List (String × JValue) :=
  jobjFields (replace_floats ((jLookup f "geometry").getD (.jobj [])))

/-- Bounding box values. -/
structure BoundsQ where
  neLat : ℚ
  neLng : ℚ
  swLat : ℚ
  swLng : ℚ

/-- Reads a feature-supplied bounds dict
(northeast/southwest with lat/lng). -/
def boundsOfJ (v : JValue) : Option BoundsQ :=
  match jLookup v "northeast", jLookup v "southwest" with
  | some nev, some swv =>
    match jLookup nev "lat", jLookup nev "lng",
        jLookup swv "lat", jLookup swv "lng" with
    | some (.jnum a), some (.jnum b), some (.jnum c), some (.jnum d) =>
      some ⟨a, b, c, d⟩
    | _, _, _, _ => none
  | _, _ => none

/-- Sums float(coord[0]) and float(coord[1]) over a ring, failing as the
TypeError handler would. -/
def coordSums : List JValue → Option (ℚ × ℚ)
  | [] => some (0, 0)
  | .jarr (x :: y :: _) :: cs =>
    match pyFloat x, pyFloat y, coordSums cs with
    | some lng, some lat, some s => some (lng + s.1, lat + s.2)
    | _, _, _ => none
  | _ => none

/-- guess_centroid_from_geometry (lines 426-458): vertex average of the
exterior ring for Polygon, the coordinate itself for Point, absent
otherwise; returns (lat, lng). -/
def guess_centroid_from_geometry (geom : List (String × JValue)) :
    Option (ℚ × ℚ) :=
  match List.lookup "type" geom with
  | some (.jstr "Polygon") =>
    match List.lookup "coordinates" geom with
    | some (.jarr (.jarr coords :: _)) =>
      match coordSums coords with
      | some s =>
        if coords.length = 0 then none
        else some (s.2 / coords.length, s.1 / coords.length)
      | none => none
    | _ => none
  | some (.jstr "Point") =>
    match List.lookup "coordinates" geom with
    | some (.jarr (c0 :: c1 :: _)) =>
      match c1, c0 with
      | .jnum lat, .jnum lng => some (lat, lng)
      | _, _ => none
    | _ => none
  | _ => none

/-- Converts a ring to (lng, lat) numbers through float(). -/
def coordListNums : List JValue → Option (List (ℚ × ℚ))
  | [] => some []
  | .jarr (x :: y :: _) :: cs =>
    match pyFloat x, pyFloat y, coordListNums cs with
    | some lng, some lat, some rest => some ((lng, lat) :: rest)
    | _, _, _ => none
  | _ => none

/-- extract_bounds_from_geometry (lines 461-491): axis-aligned min/max of
the exterior ring of a Polygon, absent otherwise. -/
def extract_bounds_from_geometry (geom : List (String × JValue)) :
    Option BoundsQ :=
  match List.lookup "type" geom with
  | some (.jstr "Polygon") =>
    match List.lookup "coordinates" geom with
    | some (.jarr (.jarr coords :: _)) =>
      match coordListNums coords with
      | some (p :: ps) =>
        some ⟨(ps.map Prod.snd).foldl max p.2, (ps.map Prod.fst).foldl max p.1,
          (ps.map Prod.snd).foldl min p.2, (ps.map Prod.fst).foldl min p.1⟩
      | _ => none
    | _ => none
  | _ => none

/-- bounds = feature.get('bounds') or, when that is falsy and a geometry
exists, the extracted bounds (lines 585-587). -/
def featureBounds (f : JValue) : Option BoundsQ :=
  let b0 := (jLookup f "bounds").getD .jnull
  if jTruthy b0 then boundsOfJ b0
  else if !(featureGeometry f).isEmpty then
    extract_bounds_from_geometry (featureGeometry f)
  else none

/-- centroid (lines 590-594): a supplied centroid_geopoint dict wins,
otherwise the geometry estimate. -/
def featureCentroid (f : JValue) : Option (ℚ × ℚ) :=
  match jLookup f "centroid_geopoint" with
  | some (.jobj cg) =>
    match List.lookup "lat" cg, List.lookup "lng" cg with
    | some (.jnum lat), some (.jnum lng) => some (lat, lng)
    | _, _ => none
  | _ =>
    if !(featureGeometry f).isEmpty then
      guess_centroid_from_geometry (featureGeometry f)
    else none

/-- geohash (lines 597-611): a truthy feature-supplied geohash wins; else
the centroid is encoded (precision 7) with the placeholder "0000000" on
failure or when no centroid exists. -/
def featureGeohash (geoEnc : ℚ → ℚ → ℕ → Option String) (f : JValue) :
    String :=
  let g0 := (jLookup f "geohash").getD .jnull
  if jTruthy g0 then pyStr g0
  else
    match featureCentroid f with
    | some c => (geoEnc c.1 c.2 7).getD "0000000"
    | none => "0000000"

/-! ## DynamoDB item construction (lines 629-838) -/

/-- DynamoDB attribute values as the script spells them: string (S),
number (N, rendered as text), boolean, null and map attributes. -/
inductive AttrVal where
  | S (s : String)
  | N (s : String)
  | BOOL (b : Bool)
  | NULL
  | M (fields : List (String × AttrVal))

/-- Property tagging (lines 808-821).  Python checks str first, then
(int, Decimal) — since bool is an instance of int, booleans take the
numeric branch rendered str(True)/str(False), and the explicit BOOL
branch is dead code; None maps to NULL and containers to their JSON
dump. -/
def tagValue : JValue → AttrVal
  | .jstr s => .S s
  | .jnum q => .N (ratStr q)
  | .jbool b => .N (if b then "True" else "False")
  | .jnull => .NULL
  | v => .S (dumpJson v)

/-- The nine attributes every item starts with (lines 630-652). -/
def baseAttrs (pk sk nm mokupuni moku gh simpB : String) :
    List (String × AttrVal) :=
  [("AhupuaaPK", .S pk), ("HierarchySK", .S sk), ("AhupuaaName", .S nm),
   ("MokupuniName", .S mokupuni), ("MokuName", .S moku), ("Geohash", .S gh),
   ("GeohashPrefix", .S (gh.take 3)), ("ZoomLevel", .N "10"),
   ("SimplifiedBoundaries", .S simpB)]

/-- SimplifiedBoundaries payload (lines 617-624 and 646-649):
json.dumps(simplified_geometry or geometry). -/
def simplifiedBoundariesStr (geom : List (String × JValue)) : String :=
  match List.lookup "coordinates" geom with
  | some coords =>
    dumpJson (.jobj [("type", (List.lookup "type" geom).getD .jnull),
      ("coordinates", simplify_coordinates SIMPLIFIED_COORDS_FACTOR coords)])
  | none => dumpJson (.jobj geom)

def centroidAttrs (c : Option (ℚ × ℚ)) : List (String × AttrVal) :=
  match c with
  | some cc => [("Centroid", .M [("Lat", .N (ratStr cc.1)),
      ("Lng", .N (ratStr cc.2))])]
  | none => []

def annotationAttrs (c : Option (ℚ × ℚ)) (title sub : String) :
    List (String × AttrVal) :=
  match c with
  | some cc => [("AnnotationPoint", .S (dumpJson (.jobj
      [("coordinate", .jarr [.jnum cc.2, .jnum cc.1]),
       ("title", .jstr title), ("subtitle", .jstr sub)])))]
  | none => []

def priorityAttrs (priority : ℤ) : List (String × AttrVal) :=
  [("DisplayPriority", .N (toString priority))]

def boundsAttrs (b : Option BoundsQ) : List (String × AttrVal) :=
  match b with
  | some bb => [("Bounds", .M [
      ("Northeast", .M [("Lat", .N (ratStr bb.neLat)),
        ("Lng", .N (ratStr bb.neLng))]),
      ("Southwest", .M [("Lat", .N (ratStr bb.swLat)),
        ("Lng", .N (ratStr bb.swLng))])])]
  | none => []

def mbrAttrs (b : Option BoundsQ) : List (String × AttrVal) :=
  match b with
  | some bb => [("MBR", .S (dumpJson (.jarr
      [.jarr [.jnum bb.swLng, .jnum bb.swLat],
       .jarr [.jnum bb.neLng, .jnum bb.neLat]])))]
  | none => []

/-- MinZoom/MaxZoom from the bounding-box span (lines 716-739). -/
def zoomAttrs (b : Option BoundsQ) : List (String × AttrVal) :=
  match b with
  | none => []
  | some bb =>
    let sizeDeg := max (bb.neLat - bb.swLat) (bb.neLng - bb.swLng)
    let minZoom : ℕ :=
      if sizeDeg < 1 / 100 then 12
      else if sizeDeg < 1 / 20 then 10
      else if sizeDeg < 1 / 5 then 8
      else 5
    [("MinZoom", .N (toString minZoom)), ("MaxZoom", .N "16")]

def geometryTypeAttrs (geom : List (String × JValue)) :
    List (String × AttrVal) :=
  match List.lookup "type" geom with
  | some t => [("GeometryType", .S (pyStr t))]
  | none => []

def fullGeometryAttrs (geom : List (String × JValue)) :
    List (String × AttrVal) :=
  [("FullGeometry", .S (dumpJson (.jobj geom)))]

def styleAttrs : List (String × AttrVal) :=
  [("StyleProperties", .M [("FillColor", .S "#A3C1AD"),
    ("BorderColor", .S "#2A6041"), ("BorderWidth", .N "2")])]

/-- Low/high detail variants (lines 761-787), decimated independently
from the original coordinates with factors 0.005 and 0.03.  The medium
variant (0.01) is computed by the script but never stored. -/
def detailAttrs (geom : List (String × JValue)) : List (String × AttrVal) :=
  match List.lookup "coordinates" geom with
  | some coords =>
    [("LowDetailBoundaries", .S (dumpJson (.jobj
       [("type", (List.lookup "type" geom).getD .jnull),
        ("coordinates", simplify_coordinates (5 / 1000) coords)]))),
     ("HighDetailBoundaries", .S (dumpJson (.jobj
       [("type", (List.lookup "type" geom).getD .jnull),
        ("coordinates", simplify_coordinates (3 / 100) coords)])))]
  | none => []

def hintsAttrs (priority : ℤ) : List (String × AttrVal) :=
  [("iOSRenderingHints", .M [
    ("StrokeWidth", .N "2"), ("FillOpacity", .N "0.5"),
    ("StrokeOpacity", .N "0.8"), ("ZIndex", .N (toString priority)),
    ("LineDashPattern", .S "[0]"), ("SelectedFillColor", .S "#C1E1AD"),
    ("SelectedStrokeColor", .S "#205841")])]

def propertiesAttrs (props : List (String × JValue)) :
    List (String × AttrVal) :=
  match props with
  | [] => []
  | _ => [("Properties", .M ((replaceFloatsFields props).map
      (fun p => (p.1, tagValue p.2))))]

def metadataAttrs (dataVersion : ℕ) (now hash : String) :
    List (String × AttrVal) :=
  [("Metadata", .M [("DataVersion", .N (toString dataVersion)),
    ("FeatureHash", .S hash), ("LastUpdated", .S now)])]

/-- One DynamoDB item for one feature, attributes in the script's
insertion order.  md5hex stands for hashlib.md5(...).hexdigest() on the
canonical serialization; geoEnc for geohash2.encode; dataVersion and now
are the run-scoped DATA_VERSION and datetime.now().isoformat(). -/
def buildItem (md5hex : String → String) (geoEnc : ℚ → ℚ → ℕ → Option String)
    (dataVersion : ℕ) (now : String) (idx : ℕ) (f : JValue) :
    List (String × AttrVal) :=
  let props := featureProperties f
  let geom := featureGeometry f
  let b := featureBounds f
  let c := featureCentroid f
  let nm := pyStr (ahupuaaName idx f)
  let moku := pyStr (mokuName f)
  let mokup := pyStr (mokupuniName f)
  let prio := displayPriority props
  baseAttrs ("AHUPUAA#" ++ featureId idx f)
      (format_hierarchical_key (mokupuniName f) (mokuName f)) nm mokup moku
      (featureGeohash geoEnc f) (simplifiedBoundariesStr geom)
    ++ centroidAttrs c
    ++ annotationAttrs c nm (moku ++ ", " ++ mokup)
    ++ priorityAttrs prio
    ++ boundsAttrs b
    ++ mbrAttrs b
    ++ zoomAttrs b
    ++ geometryTypeAttrs geom
    ++ fullGeometryAttrs geom
    ++ styleAttrs
    ++ detailAttrs geom
    ++ hintsAttrs prio
    ++ propertiesAttrs props
    ++ metadataAttrs dataVersion now (md5hex (dumpJsonSorted f))

/-- Lookup inside the item's Metadata map. -/
def itemMetaLookup (item : List (String × AttrVal)) (k : String) :
    Option AttrVal :=
  match List.lookup "Metadata" item with
  | some (.M l) => List.lookup k l
  | _ => none

theorem lookup_eq_none {β : Type} (k : String) (l : List (String × β))
    (h : ∀ p ∈ l, p.1 ≠ k) : List.lookup k l = none := by
  induction l with
  | nil => rfl
  | cons p t ih =>
    have hk : (k == p.1) = false :=
      beq_eq_false_iff_ne.2 (Ne.symm (h p (List.mem_cons_self _ _)))
    simp only [List.lookup, hk]
    exact ih fun q hq => h q (List.mem_cons_of_mem _ hq)

theorem centroidAttrs_keys (c : Option (ℚ × ℚ)) :
    ∀ p ∈ centroidAttrs c, p.1 = "Centroid" := by
  cases c <;> simp [centroidAttrs]

theorem annotationAttrs_keys (c : Option (ℚ × ℚ)) (t s : String) :
    ∀ p ∈ annotationAttrs c t s, p.1 = "AnnotationPoint" := by
  cases c <;> simp [annotationAttrs]

theorem priorityAttrs_keys (n : ℤ) :
    ∀ p ∈ priorityAttrs n, p.1 = "DisplayPriority" := by
  simp [priorityAttrs]

theorem boundsAttrs_keys (b : Option BoundsQ) :
    ∀ p ∈ boundsAttrs b, p.1 = "Bounds" := by
  cases b <;> simp [boundsAttrs]

theorem mbrAttrs_keys (b : Option BoundsQ) :
    ∀ p ∈ mbrAttrs b, p.1 = "MBR" := by
  cases b <;> simp [mbrAttrs]

theorem zoomAttrs_keys (b : Option BoundsQ) :
    ∀ p ∈ zoomAttrs b, p.1 = "MinZoom" ∨ p.1 = "MaxZoom" := by
  cases b <;> simp [zoomAttrs]

theorem geometryTypeAttrs_keys (g : List (String × JValue)) :
    ∀ p ∈ geometryTypeAttrs g, p.1 = "GeometryType" := by
  cases h : List.lookup "type" g <;> simp [geometryTypeAttrs, h]

theorem fullGeometryAttrs_keys (g : List (String × JValue)) :
    ∀ p ∈ fullGeometryAttrs g, p.1 = "FullGeometry" := by
  simp [fullGeometryAttrs]

theorem styleAttrs_keys : ∀ p ∈ styleAttrs, p.1 = "StyleProperties" := by
  simp [styleAttrs]

theorem detailAttrs_keys (g : List (String × JValue)) :
    ∀ p ∈ detailAttrs g,
      p.1 = "LowDetailBoundaries" ∨ p.1 = "HighDetailBoundaries" := by
  cases h : List.lookup "coordinates" g <;> simp [detailAttrs, h]

theorem hintsAttrs_keys (n : ℤ) :
    ∀ p ∈ hintsAttrs n, p.1 = "iOSRenderingHints" := by
  simp [hintsAttrs]

theorem propertiesAttrs_keys (props : List (String × JValue)) :
    ∀ p ∈ propertiesAttrs props, p.1 = "Properties" := by
  cases props <;> simp [propertiesAttrs]

theorem metadataAttrs_keys (dv : ℕ) (now hash : String) :
    ∀ p ∈ metadataAttrs dv now hash, p.1 = "Metadata" := by
  simp [metadataAttrs]

/-- For a key distinct from every optional/trailing attribute name, a
lookup in the whole item reduces to a lookup among the nine base
attributes. -/
theorem lookup_buildItem_base (md5hex : String → String)
    (geoEnc : ℚ → ℚ → ℕ → Option String) (dv : ℕ) (now : String) (idx : ℕ)
    (f : JValue) (k : String)
    (h1 : k ≠ "Centroid") (h2 : k ≠ "AnnotationPoint")
    (h3 : k ≠ "DisplayPriority") (h4 : k ≠ "Bounds") (h5 : k ≠ "MBR")
    (h6 : k ≠ "MinZoom") (h7 : k ≠ "MaxZoom") (h8 : k ≠ "GeometryType")
    (h9 : k ≠ "FullGeometry") (h10 : k ≠ "StyleProperties")
    (h11 : k ≠ "LowDetailBoundaries") (h12 : k ≠ "HighDetailBoundaries")
    (h13 : k ≠ "iOSRenderingHints") (h14 : k ≠ "Properties")
    (h15 : k ≠ "Metadata") :
    List.lookup k (buildItem md5hex geoEnc dv now idx f) =
      List.lookup k (baseAttrs ("AHUPUAA#" ++ featureId idx f)
        (format_hierarchical_key (mokupuniName f) (mokuName f))
        (pyStr (ahupuaaName idx f)) (pyStr (mokupuniName f))
        (pyStr (mokuName f)) (featureGeohash geoEnc f)
        (simplifiedBoundariesStr (featureGeometry f))) := by
  simp only [buildItem, List.lookup_append]
  rw [lookup_eq_none k (centroidAttrs (featureCentroid f)) (fun p hp => by
      rw [centroidAttrs_keys _ p hp]; exact Ne.symm h1),
    lookup_eq_none k (annotationAttrs _ _ _) (fun p hp => by
      rw [annotationAttrs_keys _ _ _ p hp]; exact Ne.symm h2),
    lookup_eq_none k (priorityAttrs _) (fun p hp => by
      rw [priorityAttrs_keys _ p hp]; exact Ne.symm h3),
    lookup_eq_none k (boundsAttrs (featureBounds f)) (fun p hp => by
      rw [boundsAttrs_keys _ p hp]; exact Ne.symm h4),
    lookup_eq_none k (mbrAttrs (featureBounds f)) (fun p hp => by
      rw [mbrAttrs_keys _ p hp]; exact Ne.symm h5),
    lookup_eq_none k (zoomAttrs (featureBounds f)) (fun p hp => by
      rcases zoomAttrs_keys _ p hp with h | h
      · rw [h]; exact Ne.symm h6
      · rw [h]; exact Ne.symm h7),
    lookup_eq_none k (geometryTypeAttrs (featureGeometry f)) (fun p hp => by
      rw [geometryTypeAttrs_keys _ p hp]; exact Ne.symm h8),
    lookup_eq_none k (fullGeometryAttrs (featureGeometry f)) (fun p hp => by
      rw [fullGeometryAttrs_keys _ p hp]; exact Ne.symm h9),
    lookup_eq_none k styleAttrs (fun p hp => by
      rw [styleAttrs_keys p hp]; exact Ne.symm h10),
    lookup_eq_none k (detailAttrs (featureGeometry f)) (fun p hp => by
      rcases detailAttrs_keys _ p hp with h | h
      · rw [h]; exact Ne.symm h11
      · rw [h]; exact Ne.symm h12),
    lookup_eq_none k (hintsAttrs _) (fun p hp => by
      rw [hintsAttrs_keys _ p hp]; exact Ne.symm h13),
    lookup_eq_none k (propertiesAttrs (featureProperties f)) (fun p hp => by
      rw [propertiesAttrs_keys _ p hp]; exact Ne.symm h14),
    lookup_eq_none k (metadataAttrs dv now _) (fun p hp => by
      rw [metadataAttrs_keys _ _ _ p hp]; exact Ne.symm h15)]
  simp only [Option.or_none]

/-- The Metadata attribute is always present, and carries DataVersion,
FeatureHash (the md5 hex digest of the canonical key-sorted serialization
of the raw feature) and LastUpdated. -/
theorem lookup_buildItem_metadata (md5hex : String → String)
    (geoEnc : ℚ → ℚ → ℕ → Option String) (dv : ℕ) (now : String) (idx : ℕ)
    (f : JValue) :
    List.lookup "Metadata" (buildItem md5hex geoEnc dv now idx f) =
      some (.M [("DataVersion", .N (toString dv)),
        ("FeatureHash", .S (md5hex (dumpJsonSorted f))),
        ("LastUpdated", .S now)]) := by
  simp only [buildItem, List.lookup_append]
  rw [lookup_eq_none "Metadata" (centroidAttrs (featureCentroid f)) (fun p hp => by
      rw [centroidAttrs_keys _ p hp]; decide),
    lookup_eq_none "Metadata" (annotationAttrs _ _ _) (fun p hp => by
      rw [annotationAttrs_keys _ _ _ p hp]; decide),
    lookup_eq_none "Metadata" (priorityAttrs _) (fun p hp => by
      rw [priorityAttrs_keys _ p hp]; decide),
    lookup_eq_none "Metadata" (boundsAttrs (featureBounds f)) (fun p hp => by
      rw [boundsAttrs_keys _ p hp]; decide),
    lookup_eq_none "Metadata" (mbrAttrs (featureBounds f)) (fun p hp => by
      rw [mbrAttrs_keys _ p hp]; decide),
    lookup_eq_none "Metadata" (zoomAttrs (featureBounds f)) (fun p hp => by
      rcases zoomAttrs_keys _ p hp with h | h <;> rw [h] <;> decide),
    lookup_eq_none "Metadata" (geometryTypeAttrs (featureGeometry f))
      (fun p hp => by rw [geometryTypeAttrs_keys _ p hp]; decide),
    lookup_eq_none "Metadata" (fullGeometryAttrs (featureGeometry f))
      (fun p hp => by rw [fullGeometryAttrs_keys _ p hp]; decide),
    lookup_eq_none "Metadata" styleAttrs (fun p hp => by
      rw [styleAttrs_keys p hp]; decide),
    lookup_eq_none "Metadata" (detailAttrs (featureGeometry f)) (fun p hp => by
      rcases detailAttrs_keys _ p hp with h | h <;> rw [h] <;> decide),
    lookup_eq_none "Metadata" (hintsAttrs _) (fun p hp => by
      rw [hintsAttrs_keys _ p hp]; decide),
    lookup_eq_none "Metadata" (propertiesAttrs (featureProperties f))
      (fun p hp => by rw [propertiesAttrs_keys _ p hp]; decide)]
  simp [baseAttrs, metadataAttrs, List.lookup, Option.or]

/-- The DisplayPriority attribute always carries the computed display
priority of the feature's properties. -/
theorem lookup_buildItem_displayPriority (md5hex : String → String)
    (geoEnc : ℚ → ℚ → ℕ → Option String) (dv : ℕ) (now : String) (idx : ℕ)
    (f : JValue) :
    List.lookup "DisplayPriority" (buildItem md5hex geoEnc dv now idx f) =
      some (.N (toString (displayPriority (featureProperties f)))) := by
  simp only [buildItem, List.lookup_append]
  rw [lookup_eq_none "DisplayPriority" (centroidAttrs (featureCentroid f))
      (fun p hp => by rw [centroidAttrs_keys _ p hp]; decide),
    lookup_eq_none "DisplayPriority" (annotationAttrs _ _ _) (fun p hp => by
      rw [annotationAttrs_keys _ _ _ p hp]; decide)]
  simp [baseAttrs, priorityAttrs, List.lookup, Option.or]

/-- Single-hypothesis wrapper for `lookup_buildItem_base`. -/
theorem lookup_buildItem_not_extra (md5hex : String → String)
    (geoEnc : ℚ → ℚ → ℕ → Option String) (dv : ℕ) (now : String) (idx : ℕ)
    (f : JValue) (k : String)
    (hk : ¬ k ∈ (["Centroid", "AnnotationPoint", "DisplayPriority", "Bounds",
      "MBR", "MinZoom", "MaxZoom", "GeometryType", "FullGeometry",
      "StyleProperties", "LowDetailBoundaries", "HighDetailBoundaries",
      "iOSRenderingHints", "Properties", "Metadata"] : List String)) :
    List.lookup k (buildItem md5hex geoEnc dv now idx f) =
      List.lookup k (baseAttrs ("AHUPUAA#" ++ featureId idx f)
        (format_hierarchical_key (mokupuniName f) (mokuName f))
        (pyStr (ahupuaaName idx f)) (pyStr (mokupuniName f))
        (pyStr (mokuName f)) (featureGeohash geoEnc f)
        (simplifiedBoundariesStr (featureGeometry f))) := by
  simp only [List.mem_cons, List.not_mem_nil, or_false, not_or] at hk
  obtain ⟨h1, h2, h3, h4, h5, h6, h7, h8, h9, h10, h11, h12, h13, h14, h15⟩ := hk
  exact lookup_buildItem_base md5hex geoEnc dv now idx f k
    h1 h2 h3 h4 h5 h6 h7 h8 h9 h10 h11 h12 h13 h14 h15

/-- Concrete stand-ins for the external md5 hex digest and geohash2
encoder, used only in concrete counterexamples and witnesses. -/
def hashFn0 : String → String := fun _ => "d41d8cd98f00b204e9800998ecf8427e"

def geoEnc0 : ℚ → ℚ → ℕ → Option String := fun _ _ _ => none

/-- Projects the string payload out of an S attribute. -/
def attrS : Option AttrVal → Option String
  | some (.S s) => some s
  | _ => none

/-- C1 (amended): for every input feature the persisted item uses the
field names the code writes — AhupuaaPK carrying "AHUPUAA#<id>",
HierarchySK carrying the hierarchical key, AhupuaaName, MokupuniName,
MokuName, and a Metadata map with a FeatureHash string field — while the
originally claimed names PrimaryKey, SortKey, Name, IslandName,
DistrictName and Metadata.ContentHash do not occur in the item. -/
theorem wire_field_names (md5hex : String → String)
    (geoEnc : ℚ → ℚ → ℕ → Option String) (dv : ℕ) (now : String) (idx : ℕ)
    (f : JValue) :
    List.lookup "AhupuaaPK" (buildItem md5hex geoEnc dv now idx f) =
      some (.S ("AHUPUAA#" ++ featureId idx f)) ∧
    List.lookup "HierarchySK" (buildItem md5hex geoEnc dv now idx f) =
      some (.S (format_hierarchical_key (mokupuniName f) (mokuName f))) ∧
    List.lookup "AhupuaaName" (buildItem md5hex geoEnc dv now idx f) =
      some (.S (pyStr (ahupuaaName idx f))) ∧
    List.lookup "MokupuniName" (buildItem md5hex geoEnc dv now idx f) =
      some (.S (pyStr (mokupuniName f))) ∧
    List.lookup "MokuName" (buildItem md5hex geoEnc dv now idx f) =
      some (.S (pyStr (mokuName f))) ∧
    itemMetaLookup (buildItem md5hex geoEnc dv now idx f) "FeatureHash" =
      some (.S (md5hex (dumpJsonSorted f))) ∧
    List.lookup "PrimaryKey" (buildItem md5hex geoEnc dv now idx f) = none ∧
    List.lookup "SortKey" (buildItem md5hex geoEnc dv now idx f) = none ∧
    List.lookup "Name" (buildItem md5hex geoEnc dv now idx f) = none ∧
    List.lookup "IslandName" (buildItem md5hex geoEnc dv now idx f) = none ∧
    List.lookup "DistrictName" (buildItem md5hex geoEnc dv now idx f) = none ∧
    itemMetaLookup (buildItem md5hex geoEnc dv now idx f) "ContentHash" =
      none := by
  have hmeta := lookup_buildItem_metadata md5hex geoEnc dv now idx f
  refine ⟨?_, ?_, ?_, ?_, ?_, ?_, ?_, ?_, ?_, ?_, ?_, ?_⟩
  · rw [lookup_buildItem_not_extra md5hex geoEnc dv now idx f _ (by decide)]
    rfl
  · rw [lookup_buildItem_not_extra md5hex geoEnc dv now idx f _ (by decide)]
    rfl
  · rw [lookup_buildItem_not_extra md5hex geoEnc dv now idx f _ (by decide)]
    rfl
  · rw [lookup_buildItem_not_extra md5hex geoEnc dv now idx f _ (by decide)]
    rfl
  · rw [lookup_buildItem_not_extra md5hex geoEnc dv now idx f _ (by decide)]
    rfl
  · unfold itemMetaLookup
    rw [hmeta]
    rfl
  · rw [lookup_buildItem_not_extra md5hex geoEnc dv now idx f _ (by decide)]
    rfl
  · rw [lookup_buildItem_not_extra md5hex geoEnc dv now idx f _ (by decide)]
    rfl
  · rw [lookup_buildItem_not_extra md5hex geoEnc dv now idx f _ (by decide)]
    rfl
  · rw [lookup_buildItem_not_extra md5hex geoEnc dv now idx f _ (by decide)]
    rfl
  · rw [lookup_buildItem_not_extra md5hex geoEnc dv now idx f _ (by decide)]
    rfl
  · unfold itemMetaLookup
    rw [hmeta]
    rfl

/-- Feature used in the C1 counterexample. -/
def exFeatureC1 : JValue :=
  .jobj [("properties", .jobj [("ahupuaa", .jstr "Halawa")])]

/-- C1 counterexample: at a concrete feature the item has no PrimaryKey
field and its Metadata map has no ContentHash field (the code writes
AhupuaaPK and FeatureHash instead). -/
theorem wire_field_names_counterexample :
    (List.lookup "PrimaryKey"
      (buildItem hashFn0 geoEnc0 1 "t" 0 exFeatureC1)).isNone = true ∧
    (itemMetaLookup (buildItem hashFn0 geoEnc0 1 "t" 0 exFeatureC1)
      "ContentHash").isNone = true ∧
    (List.lookup "AhupuaaPK"
      (buildItem hashFn0 geoEnc0 1 "t" 0 exFeatureC1)).isSome = true := by
  decide

/-- Value of moku/mokupuni lookups the sort-key model is defined for:
absent, None, or a string (Python would crash on other truthy values). -/
def isStrOrNull : Option JValue → Bool
  | none => true
  | some .jnull => true
  | some (.jstr _) => true
  | some _ => false

/-- The amended default rule, stated from the spec's words as corrected:
absent, None and empty-string values default to "Unknown"; any other
string is stripped of surrounding whitespace (so a whitespace-only value
becomes the empty string, not "Unknown"). -/
def keyPart : Option JValue → String
  | none => "Unknown"
  | some .jnull => "Unknown"
  | some (.jstr s) => if s = "" then "Unknown" else pyStrip s
  | some _ => ""

theorem format_key_eq_keyPart (mp mk : Option JValue)
    (hmp : isStrOrNull mp = true) (hmk : isStrOrNull mk = true) :
    format_hierarchical_key (mp.getD (.jstr "Unknown"))
      (mk.getD (.jstr "Unknown")) =
      "MOKUPUNI#" ++ keyPart mp ++ "#MOKU#" ++ keyPart mk := by
  have part : ∀ v : Option JValue, isStrOrNull v = true →
      pyStrip (pyStr (if jTruthy (v.getD (.jstr "Unknown"))
        then v.getD (.jstr "Unknown") else .jstr "Unknown")) = keyPart v := by
    intro v hv
    match v with
    | none => decide
    | some .jnull => decide
    | some (.jstr s) =>
      by_cases hs : s = ""
      · subst hs; decide
      · have hb : (s == "") = false := beq_eq_false_iff_ne.2 hs
        simp [Option.getD, jTruthy, hb, pyStr, keyPart, hs]
    | some (.jnum q) => simp [isStrOrNull] at hv
    | some (.jbool b) => simp [isStrOrNull] at hv
    | some (.jarr l) => simp [isStrOrNull] at hv
    | some (.jobj l) => simp [isStrOrNull] at hv
  show (fun m k =>
    "MOKUPUNI#" ++ m ++ "#MOKU#" ++ k)
      (pyStrip (pyStr (if jTruthy (mp.getD (.jstr "Unknown"))
        then mp.getD (.jstr "Unknown") else .jstr "Unknown")))
      (pyStrip (pyStr (if jTruthy (mk.getD (.jstr "Unknown"))
        then mk.getD (.jstr "Unknown") else .jstr "Unknown"))) = _
  rw [part mp hmp, part mk hmk]

/-- C3 (amended): the record's sort key is
"MOKUPUNI#" + island + "#MOKU#" + district where island/district default
to "Unknown" when the property is absent, None or the empty string, and
otherwise are the stripped property value — so a whitespace-only value
yields an empty component rather than "Unknown".  When both properties
are absent the sort key is "MOKUPUNI#Unknown#MOKU#Unknown". -/
theorem sort_key_amended (md5hex : String → String)
    (geoEnc : ℚ → ℚ → ℕ → Option String) (dv : ℕ) (now : String) (idx : ℕ)
    (f : JValue)
    (hmokup : isStrOrNull (List.lookup "mokupuni" (featureProperties f)) = true)
    (hmoku : isStrOrNull (List.lookup "moku" (featureProperties f)) = true) :
    List.lookup "HierarchySK" (buildItem md5hex geoEnc dv now idx f) =
      some (.S ("MOKUPUNI#" ++
        keyPart (List.lookup "mokupuni" (featureProperties f)) ++ "#MOKU#" ++
        keyPart (List.lookup "moku" (featureProperties f)))) ∧
    (List.lookup "mokupuni" (featureProperties f) = none →
      List.lookup "moku" (featureProperties f) = none →
      List.lookup "HierarchySK" (buildItem md5hex geoEnc dv now idx f) =
        some (.S "MOKUPUNI#Unknown#MOKU#Unknown")) := by
  have hbase : List.lookup "HierarchySK" (buildItem md5hex geoEnc dv now idx f) =
      some (.S (format_hierarchical_key (mokupuniName f) (mokuName f))) := by
    rw [lookup_buildItem_not_extra md5hex geoEnc dv now idx f _ (by decide)]
    rfl
  have hkey := format_key_eq_keyPart
    (List.lookup "mokupuni" (featureProperties f))
    (List.lookup "moku" (featureProperties f)) hmokup hmoku
  have e : format_hierarchical_key (mokupuniName f) (mokuName f) =
      "MOKUPUNI#" ++ keyPart (List.lookup "mokupuni" (featureProperties f)) ++
        "#MOKU#" ++ keyPart (List.lookup "moku" (featureProperties f)) := hkey
  constructor
  · rw [hbase, e]
  · intro hmp hmk
    rw [hbase, e, hmp, hmk]
    rfl

/-- Feature with whitespace-only moku/mokupuni, used against C3. -/
def exFeatureC3 : JValue :=
  .jobj [("properties", .jobj [("moku", .jstr " "), ("mokupuni", .jstr " ")])]

/-- C3 counterexample: with moku and mokupuni both a single blank — blank
after trimming — the persisted sort key is "MOKUPUNI##MOKU#", not the
claimed "MOKUPUNI#Unknown#MOKU#Unknown": `(value or "Unknown")` only
replaces falsy values, and a whitespace-only string is truthy, so it is
stripped to the empty string instead of defaulting. -/
theorem sort_key_counterexample :
    attrS (List.lookup "HierarchySK"
      (buildItem hashFn0 geoEnc0 1 "t" 0 exFeatureC3)) =
      some "MOKUPUNI##MOKU#" ∧
    ("MOKUPUNI##MOKU#" : String) ≠ "MOKUPUNI#Unknown#MOKU#Unknown" := by
  decide

/-- Witness for C3 at a feature whose moku is " Kona " and whose
mokupuni is absent. -/
theorem sort_key_amended_witness :
    List.lookup "HierarchySK" (buildItem hashFn0 geoEnc0 1 "t" 0
      (.jobj [("properties", .jobj [("moku", .jstr " Kona ")])])) =
      some (.S ("MOKUPUNI#" ++
        keyPart (List.lookup "mokupuni" (featureProperties
          (.jobj [("properties", .jobj [("moku", .jstr " Kona ")])]))) ++
        "#MOKU#" ++
        keyPart (List.lookup "moku" (featureProperties
          (.jobj [("properties", .jobj [("moku", .jstr " Kona ")])]))))) :=
  (sort_key_amended hashFn0 geoEnc0 1 "t" 0
    (.jobj [("properties", .jobj [("moku", .jstr " Kona ")])])
    (by decide) (by decide)).1

/-- C9: the FeatureHash metadata field is the digest of the canonical
key-sorted serialization of the raw feature alone — byte-identical across
two runs with different DataVersion, timestamp, stream position or
geohash encoder. -/
theorem content_hash_canonical (md5hex : String → String)
    (geoEnc1 geoEnc2 : ℚ → ℚ → ℕ → Option String) (dv1 dv2 : ℕ)
    (now1 now2 : String) (idx1 idx2 : ℕ) (f : JValue) :
    itemMetaLookup (buildItem md5hex geoEnc1 dv1 now1 idx1 f) "FeatureHash" =
      some (.S (md5hex (dumpJsonSorted f))) ∧
    itemMetaLookup (buildItem md5hex geoEnc1 dv1 now1 idx1 f) "FeatureHash" =
      itemMetaLookup (buildItem md5hex geoEnc2 dv2 now2 idx2 f)
        "FeatureHash" := by
  have e1 := lookup_buildItem_metadata md5hex geoEnc1 dv1 now1 idx1 f
  have e2 := lookup_buildItem_metadata md5hex geoEnc2 dv2 now2 idx2 f
  constructor
  · unfold itemMetaLookup
    rw [e1]
    rfl
  · unfold itemMetaLookup
    rw [e1, e2]
    rfl

theorem ratTrunc_mono {a b : ℚ} (h : a ≤ b) : ratTrunc a ≤ ratTrunc b := by
  unfold ratTrunc
  by_cases ha : 0 ≤ a
  · rw [if_pos ha, if_pos (le_trans ha h)]
    exact Int.floor_le_floor h
  · rw [if_neg ha]
    by_cases hb : 0 ≤ b
    · rw [if_pos hb]
      calc ⌈a⌉ ≤ 0 := Int.ceil_le.2 (by exact_mod_cast le_of_lt (not_le.1 ha))
        _ ≤ ⌊b⌋ := Int.le_floor.2 (by exact_mod_cast hb)
    · rw [if_neg hb]
      exact Int.ceil_le_ceil h

/-- C8: whenever the feature's area property converts to a number a, the
display priority is min(10, max(1, int(a / 10000))); the priority always
lies in [1, 10]; it is monotone non-decreasing in the area; and the item
stores it in the DisplayPriority attribute. -/
theorem display_priority_formula :
    (∀ (props : List (String × JValue)) (a : ℚ),
      pyFloat (areaValue props) = some a →
      displayPriority props = min 10 (max 1 (ratTrunc (a / 10000)))) ∧
    (∀ props : List (String × JValue),
      1 ≤ displayPriority props ∧ displayPriority props ≤ 10) ∧
    (∀ (p1 p2 : List (String × JValue)) (a b : ℚ),
      pyFloat (areaValue p1) = some a → pyFloat (areaValue p2) = some b →
      a ≤ b → displayPriority p1 ≤ displayPriority p2) ∧
    (∀ (md5hex : String → String) (geoEnc : ℚ → ℚ → ℕ → Option String)
      (dv : ℕ) (now : String) (idx : ℕ) (f : JValue),
      List.lookup "DisplayPriority" (buildItem md5hex geoEnc dv now idx f) =
        some (.N (toString (displayPriority (featureProperties f))))) := by
  refine ⟨?_, ?_, ?_, lookup_buildItem_displayPriority⟩
  · intro props a h
    simp [displayPriority, h]
  · intro props
    cases hv : pyFloat (areaValue props) with
    | none =>
      have h5 : displayPriority props = 5 := by simp [displayPriority, hv]
      rw [h5]
      exact ⟨by norm_num, by norm_num⟩
    | some a =>
      have hf : displayPriority props = min 10 (max 1 (ratTrunc (a / 10000))) := by
        simp [displayPriority, hv]
      rw [hf]
      constructor <;> omega
  · intro p1 p2 a b h1 h2 hab
    simp only [displayPriority, h1, h2]
    have hdiv : a / 10000 ≤ b / 10000 := by gcongr
    have hm := ratTrunc_mono hdiv
    omega

/-- Properties used in the priority witnesses. -/
def propsA : List (String × JValue) := [("gisacres", .jnum 50000)]

def propsB : List (String × JValue) := [("st_areashape", .jnum 120000)]

/-- Witness for C8 at concrete areas 50000 and 120000 acres. -/
theorem display_priority_formula_witness :
    displayPriority propsA = min 10 (max 1 (ratTrunc ((50000 : ℚ) / 10000))) ∧
    (1 ≤ displayPriority propsA ∧ displayPriority propsA ≤ 10) ∧
    displayPriority propsA ≤ displayPriority propsB := by
  refine ⟨display_priority_formula.1 propsA 50000 rfl,
    display_priority_formula.2.1 propsA,
    display_priority_formula.2.2.1 propsA propsB 50000 120000 rfl rfl
      (by norm_num)⟩

/-- C10: when neither gisacres nor st_areashape is present, the area
defaults to 0 and the priority is clamped up to 1; the fallback priority
5 arises exactly from a failed conversion, which requires one of the keys
to be present. -/
theorem display_priority_defaults :
    (∀ props : List (String × JValue),
      List.lookup "gisacres" props = none →
      List.lookup "st_areashape" props = none →
      displayPriority props = 1) ∧
    (∀ props : List (String × JValue),
      pyFloat (areaValue props) = none → displayPriority props = 5) ∧
    (∀ props : List (String × JValue),
      pyFloat (areaValue props) = none →
      ¬ (List.lookup "gisacres" props = none ∧
         List.lookup "st_areashape" props = none)) := by
  refine ⟨?_, ?_, ?_⟩
  · intro props h1 h2
    have : areaValue props = .jnum 0 := by simp [areaValue, h1, h2]
    simp [displayPriority, this, pyFloat, ratTrunc]
  · intro props h
    simp [displayPriority, h]
  · rintro props h ⟨h1, h2⟩
    have : areaValue props = .jnum 0 := by simp [areaValue, h1, h2]
    rw [this] at h
    simp [pyFloat] at h

/-- Witness for C10: no area keys give priority 1; a present null area
fails float() and gives the fallback 5. -/
theorem display_priority_defaults_witness :
    displayPriority [] = 1 ∧
    displayPriority [("gisacres", JValue.jnull)] = 5 ∧
    ¬ (List.lookup "gisacres" [("gisacres", JValue.jnull)] = none ∧
       List.lookup "st_areashape" [("gisacres", JValue.jnull)] = none) :=
  ⟨display_priority_defaults.1 [] rfl rfl,
   display_priority_defaults.2.1 [("gisacres", JValue.jnull)] rfl,
   display_priority_defaults.2.2 [("gisacres", JValue.jnull)] rfl⟩

/-! ## Streaming importer (process_geojson, lines 509-883)

The per-feature loop with batch accumulation, the test-mode break, and
the trailing flush.  The store is the same response-function model used
by the batch writer; the result is (overall success, total_processed). -/

/-- Flush of a (possibly empty) accumulated batch: the trailing
`if batch:` block (lines 863-870), also reached right after the
test-mode break. -/
def flushBatch (respond : ℕ → ℕ → List (List (String × AttrVal)) →
      List (List (String × AttrVal))) (maxRetries : ℕ)
    (batch : List (List (String × AttrVal))) (total : ℕ) : Bool × ℕ :=
  match batch with
  | [] => (true, total)
  | _ =>
    if write_batch_to_dynamo respond maxRetries batch then
      (true, total + batch.length)
    else (false, total)

/-- The feature loop (lines 556-861): before handling a feature, test
mode breaks once total_processed has reached the limit — but
total_processed only advances when a full batch of 25 is flushed (line
847) or at the trailing flush, so the break fires late. -/
def processGo (md5hex : String → String)
    (geoEnc : ℚ → ℚ → ℕ → Option String) (dv : ℕ) (now : String)
    (respond : ℕ → ℕ → List (List (String × AttrVal)) →
      List (List (String × AttrVal))) (maxRetries : ℕ)
    (testMode : Bool) (testLimit : ℕ) :
    List JValue → ℕ → List (List (String × AttrVal)) → ℕ → Bool × ℕ
  | [], _, batch, total => flushBatch respond maxRetries batch total
  | f :: fs, idx, batch, total =>
    if testMode = true ∧ testLimit ≤ total then
      flushBatch respond maxRetries batch total
    else
      let batch2 := batch ++ [buildItem md5hex geoEnc dv now idx f]
      if BATCH_SIZE ≤ batch2.length then
        if write_batch_to_dynamo respond maxRetries batch2 then
          processGo md5hex geoEnc dv now respond maxRetries testMode testLimit
            fs (idx + 1) [] (total + batch2.length)
        else (false, total)
      else
        processGo md5hex geoEnc dv now respond maxRetries testMode testLimit
          fs (idx + 1) batch2 total

/-- process_geojson's import pass over the parsed features. -/
def process_geojson (md5hex : String → String)
    (geoEnc : ℚ → ℚ → ℕ → Option String) (dv : ℕ) (now : String)
    (respond : ℕ → ℕ → List (List (String × AttrVal)) →
      List (List (String × AttrVal))) (maxRetries : ℕ)
    (testMode : Bool) (testLimit : ℕ) (features : List JValue) : Bool × ℕ :=
  processGo md5hex geoEnc dv now respond maxRetries testMode testLimit
    features 0 [] 0

/-- C2 evaluated at the failing input: three features in test mode with
limit 2 on an always-successful store import all three records, not two.
The break at line 560 compares total_processed, which only advances on
25-item batch flushes, so the trailing flush persists every streamed
feature. -/
theorem test_mode_limit_eval :
    process_geojson hashFn0 geoEnc0 1 "t" (fun _ _ _ => []) MAX_RETRIES
      true 2 [exFeatureC1, exFeatureC1, exFeatureC1] = (true, 3) ∧
    (3 : ℕ) ≠ 2 := by
  constructor
  · rfl
  · decide

end Ahupuaa
